import Mathlib

/-! Verification development for the TOPSIS repository (`topsis.py` and
`web_service/app.py`).  The validator and the five numeric pipeline stages
(normalization, weighting, ideal/anti-ideal extraction, separations,
scores/ranks) are shallowly embedded below; matrices are embedded as
functions `Fin rows → Fin cols → α` (the numpy 2-D arrays of the source),
numeric cell contents as `Option ℚ` (`some q` when `pd.to_numeric` parses
the cell to the number `q`, `none` when parsing fails), and real-valued
computations over `ℝ`. -/

namespace Topsis

/-! ### Input model for the validators

A pandas `DataFrame` as the two validators see it: the number of columns,
the parsed contents of the identifier column (one entry per row), and the
parsed contents of the criteria cells (row major, the columns after the
first). -/

structure DataFrame where
  ncols : ℕ
  idCol : List (Option ℚ)
  crit : List (List (Option ℚ))

/-- `pd.to_numeric` succeeds on a cell exactly when the cell carries a number. -/
def cellNumeric (c : Option ℚ) : Bool :=
  c.isSome

/-- A parsed cell holding a value `≤ 0` (the `(numeric_df <= 0)` test of the source). -/
def cellNonpos : Option ℚ → Bool
  | some q => decide (q ≤ 0)
  | none => false

/-- `pd.to_numeric(df.iloc[:, 0])` succeeds iff every identifier cell parses. -/
def idAllNumeric (df : DataFrame) : Bool :=
  df.idCol.all cellNumeric

/-- `any(w <= 0 for w in weights)` from `topsis.py`. -/
def hasNonposWeight (weights : List ℚ) : Bool :=
  weights.any fun w => decide (w ≤ 0)

/-- `all(impact in ['+', '-'] for impact in impacts)` from `topsis.py`. -/
def impactsAllValid (impacts : List Char) : Bool :=
  impacts.all fun c => c == '+' || c == '-'

/-- `criteria_data.apply(pd.to_numeric, errors='raise')` succeeds iff every cell parses. -/
def critAllNumeric (df : DataFrame) : Bool :=
  df.crit.all fun row => row.all cellNumeric

/-- `(numeric_df <= 0).any().any()` from `topsis.py`. -/
def critHasNonpos (df : DataFrame) : Bool :=
  df.crit.any fun row => row.any cellNonpos

/-- The interpolated weight-count message of `topsis.py`. -/
def weightCountMsg (nw nc : ℕ) : String :=
  "Error: Number of weights (" ++ toString nw ++ ") must match number of criteria ("
    ++ toString nc ++ ")"

/-- The interpolated impact-count message of `topsis.py`. -/
def impactCountMsg (ni nc : ℕ) : String :=
  "Error: Number of impacts (" ++ toString ni ++ ") must match number of criteria ("
    ++ toString nc ++ ")"

/-- `validate_inputs` of `topsis.py` (lines 14-64): the eight checks in source
order, returning the pair `(is_valid, message)`. -/
def validate_inputs (df : DataFrame) (weights : List ℚ) (impacts : List Char) :
    Bool × String :=
  if df.ncols < 3 then
    (false, "Error: Input data must contain three or more columns")
  else if idAllNumeric df then
    (false, "Error: First column must contain non-numeric identifiers")
  else if weights.length ≠ df.ncols - 1 then
    (false, weightCountMsg weights.length (df.ncols - 1))
  else if hasNonposWeight weights then
    (false, "Error: All weights must be positive")
  else if impacts.length ≠ df.ncols - 1 then
    (false, impactCountMsg impacts.length (df.ncols - 1))
  else if !impactsAllValid impacts then
    (false, "Error: Impacts must be '+' (benefit) or '-' (cost)")
  else if !critAllNumeric df then
    (false, "Error: All criteria columns must contain numeric values")
  else if critHasNonpos df then
    (false, "Error: All criteria values must be positive")
  else
    (true, "OK")

/-- The interpolated weight-count message of `web_service/app.py`. -/
def webWeightCountMsg (nw nc : ℕ) : String :=
  "Number of weights (" ++ toString nw ++ ") must match criteria (" ++ toString nc ++ ")"

/-- The interpolated impact-count message of `web_service/app.py`. -/
def webImpactCountMsg (ni nc : ℕ) : String :=
  "Number of impacts (" ++ toString ni ++ ") must match criteria (" ++ toString nc ++ ")"

/-- `validate_inputs` of `web_service/app.py` (lines 145-174): same structure as
the CLI validator but with no weight-positivity check and no impact-symbol
check. -/
def webValidate_inputs (df : DataFrame) (weights : List ℚ) (impacts : List Char) :
    Bool × String :=
  if df.ncols < 3 then
    (false, "Input data must contain three or more columns")
  else if idAllNumeric df then
    (false, "First column must contain non-numeric identifiers")
  else if weights.length ≠ df.ncols - 1 then
    (false, webWeightCountMsg weights.length (df.ncols - 1))
  else if impacts.length ≠ df.ncols - 1 then
    (false, webImpactCountMsg impacts.length (df.ncols - 1))
  else if !critAllNumeric df then
    (false, "All criteria must be numeric")
  else if critHasNonpos df then
    (false, "All criteria values must be positive")
  else
    (true, "Valid")

/-! ### The numeric pipeline

`normalize_matrix`, `apply_weights`, `find_ideal_solutions`,
`calculate_separations` and `calculate_scores` of `topsis.py` (the
`web_service/app.py` copies are textually identical).  Matrices with at
least one row are written over `Fin (m + 1)`; `find_ideal_solutions`
needs nonemptiness (numpy `.max()` on an empty axis raises). -/

/-- `normalize_matrix` (topsis.py lines 67-83): `n_ij = a_ij / sqrt (Σ_i a_ij ^ 2)`. -/
noncomputable def normalize_matrix {m n : ℕ} (M : Fin m → Fin n → ℝ) :
    Fin m → Fin n → ℝ :=
  fun i j => M i j / Real.sqrt (∑ k, M k j ^ 2)

/-- `apply_weights` (topsis.py lines 86-99): elementwise `v_ij = n_ij * w_j`. -/
def apply_weights {α : Type} [Mul α] {m n : ℕ} (N : Fin m → Fin n → α)
    (weights : Fin n → α) : Fin m → Fin n → α :=
  fun i j => N i j * weights j

/-- `find_ideal_solutions` (topsis.py lines 102-127): per column, the maximum
(ideal) and minimum (anti-ideal) when the impact character is `'+'`, and the
minimum (ideal) and maximum (anti-ideal) otherwise (the source's `else`
branch covers every non-`'+'` impact). -/
def find_ideal_solutions {α : Type} [LinearOrder α] {m n : ℕ}
    (V : Fin (m + 1) → Fin n → α) (impacts : Fin n → Char) :
    (Fin n → α) × (Fin n → α) :=
  (fun j =>
    if impacts j = '+' then Finset.univ.sup' Finset.univ_nonempty fun i => V i j
    else Finset.univ.inf' Finset.univ_nonempty fun i => V i j,
   fun j =>
    if impacts j = '+' then Finset.univ.inf' Finset.univ_nonempty fun i => V i j
    else Finset.univ.sup' Finset.univ_nonempty fun i => V i j)

/-- `calculate_separations` (topsis.py lines 130-147): per row, the Euclidean
distances to the ideal and to the anti-ideal point. -/
noncomputable def calculate_separations {m n : ℕ} (V : Fin m → Fin n → ℝ)
    (ideal antiIdeal : Fin n → ℝ) : (Fin m → ℝ) × (Fin m → ℝ) :=
  (fun i => Real.sqrt (∑ j, (V i j - ideal j) ^ 2),
   fun i => Real.sqrt (∑ j, (V i j - antiIdeal j) ^ 2))

/-- The score half of `calculate_scores` (topsis.py line 165):
`np.where(s_plus + s_minus != 0, s_minus / (s_plus + s_minus), 0)`. -/
def topsis_score {α : Type} [LinearOrderedField α] {m : ℕ} (sPlus sMinus : Fin m → α) :
    Fin m → α :=
  fun i => if sPlus i + sMinus i ≠ 0 then sMinus i / (sPlus i + sMinus i) else 0

/-- `pd.Series(scores).rank(method='min', ascending=False).astype(int)`
(topsis.py line 168): with `method='min'` and `ascending=False`, the rank of
an entry is one plus the number of entries strictly greater than it. -/
def rank_min_desc {α : Type} [LinearOrder α] {m : ℕ} (scores : Fin m → α) :
    Fin m → ℕ :=
  fun i => 1 + (Finset.univ.filter fun k => scores i < scores k).card

/-- `calculate_scores` (topsis.py lines 150-170): the pair of the score vector
and the rank vector computed from it. -/
def calculate_scores {α : Type} [LinearOrderedField α] {m : ℕ}
    (sPlus sMinus : Fin m → α) : (Fin m → α) × (Fin m → ℕ) :=
  (topsis_score sPlus sMinus, rank_min_desc (topsis_score sPlus sMinus))

/-- The score vector of the composed numeric pipeline (`topsis` of `topsis.py`
lines 208-226 and `perform_topsis` of `app.py` lines 222-230, after
validation): normalize, weight, extract reference points, separate, score. -/
noncomputable def pipeline_scores {m n : ℕ} (M : Fin (m + 1) → Fin n → ℝ)
    (weights : Fin n → ℝ) (impacts : Fin n → Char) : Fin (m + 1) → ℝ :=
  let V := apply_weights (normalize_matrix M) weights
  let p := find_ideal_solutions V impacts
  let s := calculate_separations V p.1 p.2
  topsis_score s.1 s.2

/-- The rank vector of the composed numeric pipeline. -/
noncomputable def pipeline_ranks {m n : ℕ} (M : Fin (m + 1) → Fin n → ℝ)
    (weights : Fin n → ℝ) (impacts : Fin n → Char) : Fin (m + 1) → ℕ :=
  rank_min_desc (pipeline_scores M weights impacts)

/-! ### Shared helper lemmas -/

/-- Over a nonempty finite index type, the maximum of a function equals its
minimum exactly when the function is constant. -/
theorem sup'_eq_inf'_iff {α : Type} [LinearOrder α] {m : ℕ} (f : Fin (m + 1) → α) :
    Finset.univ.sup' Finset.univ_nonempty f = Finset.univ.inf' Finset.univ_nonempty f ↔
      ∀ i k, f i = f k := by
  constructor
  · intro h i k
    have hik : f i ≤ f k :=
      (Finset.le_sup' f (Finset.mem_univ i)).trans
        (h.le.trans (Finset.inf'_le f (Finset.mem_univ k)))
    have hki : f k ≤ f i :=
      (Finset.le_sup' f (Finset.mem_univ k)).trans
        (h.le.trans (Finset.inf'_le f (Finset.mem_univ i)))
    exact le_antisymm hik hki
  · intro h
    apply le_antisymm
    · exact Finset.sup'_le _ f fun i _ => Finset.le_inf' _ _ fun k _ => (h i k).le
    · exact (Finset.inf'_le f (Finset.mem_univ 0)).trans (Finset.le_sup' f (Finset.mem_univ 0))

/-- The minimum of a function on a nonempty finite index type never exceeds
its maximum. -/
theorem inf'_le_sup'_univ {α : Type} [LinearOrder α] {m : ℕ} (f : Fin (m + 1) → α) :
    Finset.univ.inf' Finset.univ_nonempty f ≤ Finset.univ.sup' Finset.univ_nonempty f :=
  (Finset.inf'_le f (Finset.mem_univ 0)).trans (Finset.le_sup' f (Finset.mem_univ 0))

/-- C6: for a weighted matrix with at least one row, `find_ideal_solutions`
returns, per column, the column maximum as ideal and the column minimum as
anti-ideal when the impact is the benefit symbol, and the column minimum as
ideal and the column maximum as anti-ideal when the impact is the cost
symbol (maximum and minimum stated behaviorally: an upper or lower bound
that is attained). -/
theorem find_ideal_solutions_minmax {α : Type} [LinearOrder α] {m n : ℕ}
    (V : Fin (m + 1) → Fin n → α) (impacts : Fin n → Char) (j : Fin n) :
    (impacts j = '+' →
      (∀ i, V i j ≤ (find_ideal_solutions V impacts).1 j) ∧
      (∃ i, (find_ideal_solutions V impacts).1 j = V i j) ∧
      (∀ i, (find_ideal_solutions V impacts).2 j ≤ V i j) ∧
      (∃ i, (find_ideal_solutions V impacts).2 j = V i j)) ∧
    (impacts j = '-' →
      (∀ i, (find_ideal_solutions V impacts).1 j ≤ V i j) ∧
      (∃ i, (find_ideal_solutions V impacts).1 j = V i j) ∧
      (∀ i, V i j ≤ (find_ideal_solutions V impacts).2 j) ∧
      (∃ i, (find_ideal_solutions V impacts).2 j = V i j)) := by
  obtain ⟨iM, -, hiM⟩ := Finset.exists_mem_eq_sup' Finset.univ_nonempty fun i => V i j
  obtain ⟨im, -, him⟩ := Finset.exists_mem_eq_inf' Finset.univ_nonempty fun i => V i j
  constructor
  · intro h
    have e1 : (find_ideal_solutions V impacts).1 j =
        Finset.univ.sup' Finset.univ_nonempty fun i => V i j := by
      simp only [find_ideal_solutions]
      exact if_pos h
    have e2 : (find_ideal_solutions V impacts).2 j =
        Finset.univ.inf' Finset.univ_nonempty fun i => V i j := by
      simp only [find_ideal_solutions]
      exact if_pos h
    rw [e1, e2]
    exact ⟨fun i => Finset.le_sup' (fun i => V i j) (Finset.mem_univ i), ⟨iM, hiM⟩,
      fun i => Finset.inf'_le (fun i => V i j) (Finset.mem_univ i), ⟨im, him⟩⟩
  · intro h
    have h' : impacts j ≠ '+' := by rw [h]; decide
    have e1 : (find_ideal_solutions V impacts).1 j =
        Finset.univ.inf' Finset.univ_nonempty fun i => V i j := by
      simp only [find_ideal_solutions]
      exact if_neg h'
    have e2 : (find_ideal_solutions V impacts).2 j =
        Finset.univ.sup' Finset.univ_nonempty fun i => V i j := by
      simp only [find_ideal_solutions]
      exact if_neg h'
    rw [e1, e2]
    exact ⟨fun i => Finset.inf'_le (fun i => V i j) (Finset.mem_univ i), ⟨im, him⟩,
      fun i => Finset.le_sup' (fun i => V i j) (Finset.mem_univ i), ⟨iM, hiM⟩⟩

/-- Witness for C6 at a concrete matrix: column 0 has a benefit impact, so the
ideal entry bounds the column from above; column 1 has a cost impact, so the
ideal entry bounds the column from below. -/
theorem find_ideal_solutions_minmax_witness :
    (∀ i, (![![(1 : ℚ), 4], ![3, 2]]) i 0 ≤
        (find_ideal_solutions ![![(1 : ℚ), 4], ![3, 2]] !['+', '-']).1 0) ∧
    (∀ i, (find_ideal_solutions ![![(1 : ℚ), 4], ![3, 2]] !['+', '-']).1 1 ≤
        (![![(1 : ℚ), 4], ![3, 2]]) i 1) :=
  ⟨((find_ideal_solutions_minmax ![![(1 : ℚ), 4], ![3, 2]] !['+', '-'] 0).1 (by decide)).1,
   ((find_ideal_solutions_minmax ![![(1 : ℚ), 4], ![3, 2]] !['+', '-'] 1).2 (by decide)).1⟩

/-- C1 fails as stated: on the one-column matrix with rows `1` and `2` and a
cost impact, `find_ideal_solutions` puts the column minimum in the ideal and
the column maximum in the anti-ideal, so the ideal entry is strictly below
the anti-ideal entry. -/
theorem find_ideal_ge_counterexample :
    ¬ ((find_ideal_solutions ![![(1 : ℚ)], ![2]] fun _ => '-').2 0 ≤
       (find_ideal_solutions ![![(1 : ℚ)], ![2]] fun _ => '-').1 0) := by
  decide

/-- C1 (amended): for a weighted matrix with at least one row, the ideal entry
is at least the anti-ideal entry in every benefit column and at most the
anti-ideal entry in every cost column, and the two are equal exactly when
the column is constant. -/
theorem find_ideal_solutions_order {α : Type} [LinearOrder α] {m n : ℕ}
    (V : Fin (m + 1) → Fin n → α) (impacts : Fin n → Char) (j : Fin n) :
    (impacts j = '+' →
      (find_ideal_solutions V impacts).2 j ≤ (find_ideal_solutions V impacts).1 j) ∧
    (impacts j ≠ '+' →
      (find_ideal_solutions V impacts).1 j ≤ (find_ideal_solutions V impacts).2 j) ∧
    ((find_ideal_solutions V impacts).1 j = (find_ideal_solutions V impacts).2 j ↔
      ∀ i k, V i j = V k j) := by
  by_cases h : impacts j = '+'
  · have e1 : (find_ideal_solutions V impacts).1 j =
        Finset.univ.sup' Finset.univ_nonempty fun i => V i j := by
      simp only [find_ideal_solutions]
      exact if_pos h
    have e2 : (find_ideal_solutions V impacts).2 j =
        Finset.univ.inf' Finset.univ_nonempty fun i => V i j := by
      simp only [find_ideal_solutions]
      exact if_pos h
    rw [e1, e2]
    exact ⟨fun _ => inf'_le_sup'_univ fun i => V i j, fun hne => absurd h hne,
      sup'_eq_inf'_iff fun i => V i j⟩
  · have e1 : (find_ideal_solutions V impacts).1 j =
        Finset.univ.inf' Finset.univ_nonempty fun i => V i j := by
      simp only [find_ideal_solutions]
      exact if_neg h
    have e2 : (find_ideal_solutions V impacts).2 j =
        Finset.univ.sup' Finset.univ_nonempty fun i => V i j := by
      simp only [find_ideal_solutions]
      exact if_neg h
    rw [e1, e2]
    refine ⟨fun hp => absurd hp h, fun _ => inf'_le_sup'_univ fun i => V i j, ?_⟩
    rw [eq_comm]
    exact sup'_eq_inf'_iff fun i => V i j

/-- Witness for the amended C1 at the counterexample input: in the cost
column the ideal entry is at most the anti-ideal entry. -/
theorem find_ideal_solutions_order_witness :
    (find_ideal_solutions ![![(1 : ℚ)], ![2]] fun _ => '-').1 0 ≤
      (find_ideal_solutions ![![(1 : ℚ)], ![2]] fun _ => '-').2 0 :=
  (find_ideal_solutions_order ![![(1 : ℚ)], ![2]] (fun _ => '-') 0).2.1 (by decide)

/-- C3: on non-negative separation vectors, the score component of
`calculate_scores` is `S⁻ / (S⁺ + S⁻)` whenever the denominator is nonzero,
is exactly `0` when the denominator is zero, and always lies in `[0, 1]`. -/
theorem calculate_scores_score_spec {α : Type} [LinearOrderedField α] {m : ℕ}
    (sPlus sMinus : Fin m → α) (hp : ∀ i, 0 ≤ sPlus i) (hm : ∀ i, 0 ≤ sMinus i)
    (i : Fin m) :
    (sPlus i + sMinus i ≠ 0 →
      (calculate_scores sPlus sMinus).1 i = sMinus i / (sPlus i + sMinus i)) ∧
    (sPlus i + sMinus i = 0 → (calculate_scores sPlus sMinus).1 i = 0) ∧
    0 ≤ (calculate_scores sPlus sMinus).1 i ∧ (calculate_scores sPlus sMinus).1 i ≤ 1 := by
  refine ⟨fun h => ?_, fun h => ?_, ?_, ?_⟩
  · simp only [calculate_scores, topsis_score]
    exact if_pos h
  · simp only [calculate_scores, topsis_score]
    rw [if_neg (by simpa using h)]
  · rcases eq_or_ne (sPlus i + sMinus i) 0 with h | h
    · simp only [calculate_scores, topsis_score]
      rw [if_neg (by simpa using h)]
    · have hpos : 0 < sPlus i + sMinus i :=
        (add_nonneg (hp i) (hm i)).lt_of_ne (Ne.symm h)
      simp only [calculate_scores, topsis_score]
      rw [if_pos h]
      exact div_nonneg (hm i) hpos.le
  · rcases eq_or_ne (sPlus i + sMinus i) 0 with h | h
    · simp only [calculate_scores, topsis_score]
      rw [if_neg (by simpa using h)]
      exact zero_le_one
    · have hpos : 0 < sPlus i + sMinus i :=
        (add_nonneg (hp i) (hm i)).lt_of_ne (Ne.symm h)
      simp only [calculate_scores, topsis_score]
      rw [if_pos h]
      exact div_le_one_of_le₀ (le_add_of_nonneg_left (hp i)) hpos.le

/-- Witness for C3 at the separations `S⁺ = 1`, `S⁻ = 3`: the score equals the
quotient and lies in `[0, 1]`. -/
theorem calculate_scores_score_witness :
    (calculate_scores ((fun _ => 1) : Fin 1 → ℚ) ((fun _ => 3) : Fin 1 → ℚ)).1 0 =
      ((fun _ => 3) : Fin 1 → ℚ) 0 / (((fun _ => 1) : Fin 1 → ℚ) 0 + ((fun _ => 3) : Fin 1 → ℚ) 0) ∧
    0 ≤ (calculate_scores ((fun _ => 1) : Fin 1 → ℚ) ((fun _ => 3) : Fin 1 → ℚ)).1 0 ∧
    (calculate_scores ((fun _ => 1) : Fin 1 → ℚ) ((fun _ => 3) : Fin 1 → ℚ)).1 0 ≤ 1 :=
  ⟨(calculate_scores_score_spec ((fun _ => 1) : Fin 1 → ℚ) ((fun _ => 3) : Fin 1 → ℚ)
      (fun _ => by norm_num) (fun _ => by norm_num) 0).1 (by norm_num),
   (calculate_scores_score_spec ((fun _ => 1) : Fin 1 → ℚ) ((fun _ => 3) : Fin 1 → ℚ)
      (fun _ => by norm_num) (fun _ => by norm_num) 0).2.2⟩

/-- C4: the rank component of `calculate_scores` is `rank_min_desc` of the
score component; `rank_min_desc` assigns each entry one plus the number of
strictly greater entries, equal scores receive equal ranks, an entry has
rank 1 exactly when its score is maximal, and ranks need not be contiguous
after a tie (witnessed by the score vector `(1, 1, 0)`, whose ranks are
`(1, 1, 3)`). -/
theorem calculate_scores_rank_spec {α : Type} [LinearOrder α] {m : ℕ}
    (scores : Fin m → α) :
    (∀ (β : Type) (_ : LinearOrderedField β) (sPlus sMinus : Fin m → β),
      (calculate_scores sPlus sMinus).2 = rank_min_desc ((calculate_scores sPlus sMinus).1)) ∧
    (∀ i, rank_min_desc scores i =
      1 + (Finset.univ.filter fun k => scores i < scores k).card) ∧
    (∀ i k, scores i = scores k → rank_min_desc scores i = rank_min_desc scores k) ∧
    (∀ i, rank_min_desc scores i = 1 ↔ ∀ k, scores k ≤ scores i) ∧
    (∃ t : Fin 3 → ℚ, t 0 = t 1 ∧ rank_min_desc t 0 = 1 ∧ rank_min_desc t 1 = 1 ∧
      rank_min_desc t 2 = 3) := by
  refine ⟨fun β _ sPlus sMinus => rfl, fun i => rfl, ?_, ?_, ⟨![1, 1, 0], by decide⟩⟩
  · intro i k h
    simp only [rank_min_desc]
    rw [h]
  · intro i
    simp only [rank_min_desc]
    constructor
    · intro h k
      by_contra hk
      push_neg at hk
      have hmem : k ∈ Finset.univ.filter fun k => scores i < scores k :=
        Finset.mem_filter.mpr ⟨Finset.mem_univ k, hk⟩
      have hpos : 0 < (Finset.univ.filter fun k => scores i < scores k).card :=
        Finset.card_pos.mpr ⟨k, hmem⟩
      omega
    · intro h
      have he : (Finset.univ.filter fun k => scores i < scores k) = ∅ :=
        Finset.filter_eq_empty_iff.mpr fun k _ => not_lt.mpr (h k)
      rw [he, Finset.card_empty]

/-- Witness for C4 at the score vector `(1, 1, 0)`: the two tied entries get
the same rank, and the maximal entry gets rank 1. -/
theorem calculate_scores_rank_witness :
    rank_min_desc ![(1 : ℚ), 1, 0] 0 = rank_min_desc ![(1 : ℚ), 1, 0] 1 ∧
    rank_min_desc ![(1 : ℚ), 1, 0] 0 = 1 :=
  ⟨(calculate_scores_rank_spec ![(1 : ℚ), 1, 0]).2.2.1 0 1 (by decide),
   ((calculate_scores_rank_spec ![(1 : ℚ), 1, 0]).2.2.2.1 0).mpr (by decide)⟩

/-- C5: the CLI `validate_inputs` succeeds exactly when all eight checks hold,
and when a check fails every earlier check passed and the returned message
is the failing check's message (fail-fast, first violated check wins). -/
theorem validate_inputs_spec (df : DataFrame) (weights : List ℚ) (impacts : List Char) :
    ((validate_inputs df weights impacts).1 = true ↔
      (3 ≤ df.ncols ∧ idAllNumeric df = false ∧ weights.length = df.ncols - 1 ∧
        hasNonposWeight weights = false ∧ impacts.length = df.ncols - 1 ∧
        impactsAllValid impacts = true ∧ critAllNumeric df = true ∧
        critHasNonpos df = false)) ∧
    (df.ncols < 3 →
      validate_inputs df weights impacts =
        (false, "Error: Input data must contain three or more columns")) ∧
    (3 ≤ df.ncols → idAllNumeric df = true →
      validate_inputs df weights impacts =
        (false, "Error: First column must contain non-numeric identifiers")) ∧
    (3 ≤ df.ncols → idAllNumeric df = false → weights.length ≠ df.ncols - 1 →
      validate_inputs df weights impacts =
        (false, weightCountMsg weights.length (df.ncols - 1))) ∧
    (3 ≤ df.ncols → idAllNumeric df = false → weights.length = df.ncols - 1 →
      hasNonposWeight weights = true →
      validate_inputs df weights impacts = (false, "Error: All weights must be positive")) ∧
    (3 ≤ df.ncols → idAllNumeric df = false → weights.length = df.ncols - 1 →
      hasNonposWeight weights = false → impacts.length ≠ df.ncols - 1 →
      validate_inputs df weights impacts =
        (false, impactCountMsg impacts.length (df.ncols - 1))) ∧
    (3 ≤ df.ncols → idAllNumeric df = false → weights.length = df.ncols - 1 →
      hasNonposWeight weights = false → impacts.length = df.ncols - 1 →
      impactsAllValid impacts = false →
      validate_inputs df weights impacts =
        (false, "Error: Impacts must be '+' (benefit) or '-' (cost)")) ∧
    (3 ≤ df.ncols → idAllNumeric df = false → weights.length = df.ncols - 1 →
      hasNonposWeight weights = false → impacts.length = df.ncols - 1 →
      impactsAllValid impacts = true → critAllNumeric df = false →
      validate_inputs df weights impacts =
        (false, "Error: All criteria columns must contain numeric values")) ∧
    (3 ≤ df.ncols → idAllNumeric df = false → weights.length = df.ncols - 1 →
      hasNonposWeight weights = false → impacts.length = df.ncols - 1 →
      impactsAllValid impacts = true → critAllNumeric df = true →
      critHasNonpos df = true →
      validate_inputs df weights impacts =
        (false, "Error: All criteria values must be positive")) := by
  simp only [validate_inputs]
  split_ifs with h1 h2 h3 h4 h5 h6 h7 h8 <;>
    simp_all [Nat.not_lt, Bool.not_eq_true]

/-- Witness for C5: a two-column frame fails the first check with the
too-few-columns message, and a frame passing the first two checks with a
short weight list fails with the weight-count message; a fully valid input
is accepted. -/
theorem validate_inputs_spec_witness :
    validate_inputs ⟨2, [none], [[some 1]]⟩ [1] ['+'] =
      (false, "Error: Input data must contain three or more columns") ∧
    validate_inputs ⟨3, [none], [[some 1, some 2]]⟩ [1] ['+', '-'] =
      (false, weightCountMsg 1 2) ∧
    (validate_inputs ⟨3, [none], [[some 1, some 2]]⟩ [1, 1] ['+', '-']).1 = true :=
  ⟨(validate_inputs_spec ⟨2, [none], [[some 1]]⟩ [1] ['+']).2.1 (by decide),
   (validate_inputs_spec ⟨3, [none], [[some 1, some 2]]⟩ [1] ['+', '-']).2.2.2.1
     (by decide) (by decide) (by decide),
   (validate_inputs_spec ⟨3, [none], [[some 1, some 2]]⟩ [1, 1] ['+', '-']).1.mpr
     (by decide)⟩

/-- C10: the web validator accepts inputs the CLI validator rejects, in both
claimed ways: a weight vector of matching length containing a non-positive
entry, and an impact vector of matching length containing a symbol other
than the benefit and cost symbols. -/
theorem webValidate_accepts_cli_rejects :
    (∃ (df : DataFrame) (w : List ℚ) (imp : List Char),
      (∃ x ∈ w, x ≤ 0) ∧ w.length = df.ncols - 1 ∧ imp.length = df.ncols - 1 ∧
      (webValidate_inputs df w imp).1 = true ∧ (validate_inputs df w imp).1 = false) ∧
    (∃ (df : DataFrame) (w : List ℚ) (imp : List Char),
      (∃ c ∈ imp, c ≠ '+' ∧ c ≠ '-') ∧ w.length = df.ncols - 1 ∧
      imp.length = df.ncols - 1 ∧
      (webValidate_inputs df w imp).1 = true ∧ (validate_inputs df w imp).1 = false) :=
  ⟨⟨⟨3, [none], [[some 1, some 2]]⟩, [0, 1], ['+', '-'], by decide⟩,
   ⟨⟨3, [none], [[some 1, some 2]]⟩, [1, 1], ['+', 'x'], by decide⟩⟩

/-- C7: for a criteria matrix with at least one row and all entries strictly
positive, `normalize_matrix` divides each entry by its column's Euclidean
norm, and every column of the output has Euclidean norm exactly 1. -/
theorem normalize_matrix_spec {m n : ℕ} (M : Fin (m + 1) → Fin n → ℝ)
    (hpos : ∀ i j, 0 < M i j) :
    (∀ i j, normalize_matrix M i j = M i j / Real.sqrt (∑ k, M k j ^ 2)) ∧
    (∀ j, Real.sqrt (∑ i, normalize_matrix M i j ^ 2) = 1) := by
  refine ⟨fun i j => rfl, fun j => ?_⟩
  have hS : 0 < ∑ k, M k j ^ 2 :=
    Finset.sum_pos (fun k _ => pow_pos (hpos k j) 2) Finset.univ_nonempty
  have hterm : ∀ i, normalize_matrix M i j ^ 2 = M i j ^ 2 / (∑ k, M k j ^ 2) := by
    intro i
    rw [normalize_matrix, div_pow, Real.sq_sqrt hS.le]
  rw [Finset.sum_congr rfl fun i _ => hterm i, ← Finset.sum_div, div_self hS.ne',
    Real.sqrt_one]

/-- Witness for C7 at the constant positive 1-by-1 matrix with entry 2: the
normalized column has Euclidean norm 1. -/
theorem normalize_matrix_spec_witness :
    Real.sqrt (∑ i, normalize_matrix ((fun _ _ => 2) : Fin 1 → Fin 1 → ℝ) i 0 ^ 2) = 1 :=
  (normalize_matrix_spec ((fun _ _ => 2) : Fin 1 → Fin 1 → ℝ) fun _ _ => by norm_num).2 0

/-- Multiplying by a non-negative constant commutes with a finite maximum. -/
theorem sup'_mul_left {m : ℕ} (c : ℝ) (hc : 0 ≤ c) (f : Fin (m + 1) → ℝ) :
    (Finset.univ.sup' Finset.univ_nonempty fun i => c * f i) =
      c * Finset.univ.sup' Finset.univ_nonempty f :=
  (Finset.comp_sup'_eq_sup'_comp Finset.univ_nonempty (fun x => c * x)
    fun x y => mul_max_of_nonneg x y hc).symm

/-- Multiplying by a non-negative constant commutes with a finite minimum. -/
theorem inf'_mul_left {m : ℕ} (c : ℝ) (hc : 0 ≤ c) (f : Fin (m + 1) → ℝ) :
    (Finset.univ.inf' Finset.univ_nonempty fun i => c * f i) =
      c * Finset.univ.inf' Finset.univ_nonempty f :=
  (Finset.comp_inf'_eq_inf'_comp Finset.univ_nonempty (fun x => c * x)
    fun x y => mul_min_of_nonneg x y hc).symm

/-- Scaling the weighted matrix by a non-negative constant scales both
reference points of `find_ideal_solutions` by the same constant. -/
theorem find_ideal_solutions_mul_left {m n : ℕ} (c : ℝ) (hc : 0 ≤ c)
    (V : Fin (m + 1) → Fin n → ℝ) (impacts : Fin n → Char) :
    find_ideal_solutions (fun i j => c * V i j) impacts =
      (fun j => c * (find_ideal_solutions V impacts).1 j,
       fun j => c * (find_ideal_solutions V impacts).2 j) := by
  simp only [find_ideal_solutions]
  congr 1 <;> funext j <;> split_ifs with h
  · exact sup'_mul_left c hc fun i => V i j
  · exact inf'_mul_left c hc fun i => V i j
  · exact inf'_mul_left c hc fun i => V i j
  · exact sup'_mul_left c hc fun i => V i j

/-- Scaling matrix and reference points by a non-negative constant scales both
separation vectors by the same constant. -/
theorem calculate_separations_mul_left {m n : ℕ} (c : ℝ) (hc : 0 ≤ c)
    (V : Fin m → Fin n → ℝ) (a b : Fin n → ℝ) :
    calculate_separations (fun i j => c * V i j) (fun j => c * a j) (fun j => c * b j) =
      (fun i => c * (calculate_separations V a b).1 i,
       fun i => c * (calculate_separations V a b).2 i) := by
  have key : ∀ (d : Fin n → ℝ) (i : Fin m),
      Real.sqrt (∑ j, (c * V i j - c * d j) ^ 2) =
        c * Real.sqrt (∑ j, (V i j - d j) ^ 2) := by
    intro d i
    have h1 : ∀ j : Fin n, (c * V i j - c * d j) ^ 2 = c ^ 2 * (V i j - d j) ^ 2 :=
      fun j => by ring
    rw [Finset.sum_congr rfl fun j _ => h1 j, ← Finset.mul_sum,
      Real.sqrt_mul (sq_nonneg c), Real.sqrt_sq hc]
  simp only [calculate_separations]
  congr 1 <;> funext i
  · exact key a i
  · exact key b i

/-- Scaling both separation vectors by the same nonzero constant leaves every
score of `topsis_score` unchanged. -/
theorem topsis_score_mul_left {m : ℕ} (c : ℝ) (hc : c ≠ 0) (sPlus sMinus : Fin m → ℝ) :
    topsis_score (fun i => c * sPlus i) (fun i => c * sMinus i) =
      topsis_score sPlus sMinus := by
  funext i
  simp only [topsis_score, ← mul_add]
  rcases eq_or_ne (sPlus i + sMinus i) 0 with h | h
  · rw [h, mul_zero]
    simp
  · rw [if_pos (mul_ne_zero hc h), if_pos h, mul_div_mul_left _ _ hc]

/-- C8: multiplying every weight by the same positive constant changes neither
any pipeline score nor any pipeline rank. -/
theorem pipeline_scale_invariant {m n : ℕ} (M : Fin (m + 1) → Fin n → ℝ)
    (weights : Fin n → ℝ) (impacts : Fin n → Char) (c : ℝ) (hc : 0 < c) :
    pipeline_scores M (fun j => c * weights j) impacts =
      pipeline_scores M weights impacts ∧
    pipeline_ranks M (fun j => c * weights j) impacts =
      pipeline_ranks M weights impacts := by
  have hV : apply_weights (normalize_matrix M) (fun j => c * weights j) =
      fun i j => c * apply_weights (normalize_matrix M) weights i j := by
    funext i j
    simp only [apply_weights]
    ring
  have hscores : pipeline_scores M (fun j => c * weights j) impacts =
      pipeline_scores M weights impacts := by
    simp only [pipeline_scores, hV, find_ideal_solutions_mul_left c hc.le,
      calculate_separations_mul_left c hc.le]
    exact topsis_score_mul_left c hc.ne' _ _
  exact ⟨hscores, by simp only [pipeline_ranks, hscores]⟩

/-- Witness for C8 at a concrete 1-by-1 matrix, unit weight and scaling
constant 2: scores and ranks agree with the unscaled run. -/
theorem pipeline_scale_invariant_witness :
    pipeline_scores ((fun _ _ => 1) : Fin 1 → Fin 1 → ℝ) ((fun _ => 2 * 1) : Fin 1 → ℝ)
        (fun _ => '+') =
      pipeline_scores ((fun _ _ => 1) : Fin 1 → Fin 1 → ℝ) ((fun _ => 1) : Fin 1 → ℝ)
        (fun _ => '+') ∧
    pipeline_ranks ((fun _ _ => 1) : Fin 1 → Fin 1 → ℝ) ((fun _ => 2 * 1) : Fin 1 → ℝ)
        (fun _ => '+') =
      pipeline_ranks ((fun _ _ => 1) : Fin 1 → Fin 1 → ℝ) ((fun _ => 1) : Fin 1 → ℝ)
        (fun _ => '+') :=
  pipeline_scale_invariant ((fun _ _ => 1) : Fin 1 → Fin 1 → ℝ) ((fun _ => 1) : Fin 1 → ℝ)
    (fun _ => '+') 2 (by norm_num)

/-- A finite maximum is invariant under precomposition with a permutation of
the index type. -/
theorem sup'_perm {α : Type} [LinearOrder α] {m : ℕ} (f : Fin (m + 1) → α)
    (σ : Equiv.Perm (Fin (m + 1))) :
    (Finset.univ.sup' Finset.univ_nonempty fun i => f (σ i)) =
      Finset.univ.sup' Finset.univ_nonempty f := by
  apply le_antisymm
  · exact Finset.sup'_le _ _ fun i _ => Finset.le_sup' f (Finset.mem_univ (σ i))
  · refine Finset.sup'_le _ _ fun i _ => ?_
    have h := Finset.le_sup' (fun i => f (σ i)) (Finset.mem_univ (σ.symm i))
    simpa using h

/-- A finite minimum is invariant under precomposition with a permutation of
the index type. -/
theorem inf'_perm {α : Type} [LinearOrder α] {m : ℕ} (f : Fin (m + 1) → α)
    (σ : Equiv.Perm (Fin (m + 1))) :
    (Finset.univ.inf' Finset.univ_nonempty fun i => f (σ i)) =
      Finset.univ.inf' Finset.univ_nonempty f := by
  apply le_antisymm
  · refine Finset.le_inf' _ _ fun i _ => ?_
    have h := Finset.inf'_le (fun i => f (σ i)) (Finset.mem_univ (σ.symm i))
    simpa using h
  · exact Finset.le_inf' _ _ fun i _ => Finset.inf'_le f (Finset.mem_univ (σ i))

/-- Permuting the score vector permutes the `rank_min_desc` ranks the same
way. -/
theorem rank_min_desc_perm {α : Type} [LinearOrder α] {m : ℕ} (scores : Fin m → α)
    (σ : Equiv.Perm (Fin m)) (i : Fin m) :
    rank_min_desc (fun k => scores (σ k)) i = rank_min_desc scores (σ i) := by
  simp only [rank_min_desc]
  congr 1
  exact Finset.card_equiv σ fun k => by simp

/-- C9: permuting the rows of the decision matrix gives each alternative the
same pipeline score and the same pipeline rank it receives on the original
matrix (row `i` of the permuted run is row `σ i` of the original run). -/
theorem pipeline_perm_invariant {m n : ℕ} (M : Fin (m + 1) → Fin n → ℝ)
    (weights : Fin n → ℝ) (impacts : Fin n → Char) (σ : Equiv.Perm (Fin (m + 1)))
    (i : Fin (m + 1)) :
    pipeline_scores (fun r j => M (σ r) j) weights impacts i =
      pipeline_scores M weights impacts (σ i) ∧
    pipeline_ranks (fun r j => M (σ r) j) weights impacts i =
      pipeline_ranks M weights impacts (σ i) := by
  have hV : apply_weights (normalize_matrix fun r j => M (σ r) j) weights =
      fun r j => apply_weights (normalize_matrix M) weights (σ r) j := by
    funext r j
    simp only [apply_weights, normalize_matrix]
    rw [Equiv.sum_comp σ fun k => M k j ^ 2]
  have hid : find_ideal_solutions
      (fun r j => apply_weights (normalize_matrix M) weights (σ r) j) impacts =
      find_ideal_solutions (apply_weights (normalize_matrix M) weights) impacts := by
    simp only [find_ideal_solutions]
    congr 1 <;> funext j <;> split_ifs with h
    · exact sup'_perm (fun r => apply_weights (normalize_matrix M) weights r j) σ
    · exact inf'_perm (fun r => apply_weights (normalize_matrix M) weights r j) σ
    · exact inf'_perm (fun r => apply_weights (normalize_matrix M) weights r j) σ
    · exact sup'_perm (fun r => apply_weights (normalize_matrix M) weights r j) σ
  have hscores : pipeline_scores (fun r j => M (σ r) j) weights impacts =
      fun r => pipeline_scores M weights impacts (σ r) := by
    funext r
    simp only [pipeline_scores, hV, hid, calculate_separations, topsis_score]
  refine ⟨by rw [hscores], ?_⟩
  simp only [pipeline_ranks, hscores]
  exact rank_min_desc_perm (pipeline_scores M weights impacts) σ i

end Topsis
